import Mathlib

/-!
# ButtonThrower (panda/src/tform/buttonThrower.cxx)

A shallow embedding of the throw-button set of `ButtonThrower` and of its
`do_transmit_data` event loop, followed by theorems about them.

Conventions of the embedding:

* `ButtonHandle` is the integer index the engine's handle wraps; the button
  registry that gives a handle its name is a parameter (`get_name`).
* `ModifierButtons` is declared outside this source file.  Its state type `M`
  and the four member functions the thrower calls are parameters, bundled in
  `ModifierButtonsOps`.
* `_throw_buttons` is a `std::map` from `ButtonHandle` to a vector of
  `ModifierButtons`; it is embedded as its lookup function, `none` meaning
  that the key is absent.
* `throw_event` is embedded as appending to a list of thrown events, and the
  calls of `do_specific_event` and `do_general_event` are recorded in a log.
-/

namespace ButtonThrowerModel

/-- ButtonHandle: the registry index of a button. -/
structure ButtonHandle where
  index : Nat
deriving DecidableEq, Repr

/-- The member functions of ModifierButtons that ButtonThrower calls, over an
arbitrary state type `M`.  `button_down` and `button_up` give the boolean the
C++ member returns together with the updated object. -/
structure ModifierButtonsOps (M : Type) where
  «matches» : M → M → Bool
  button_down : M → ButtonHandle → Bool × M
  button_up : M → ButtonHandle → Bool × M
  get_prefix : M → String

/-- ThrowButtonDef: the vector of ModifierButtons stored for one button. -/
abbrev ThrowButtonDef (M : Type) := List M

/-- ThrowButtons: the map from button to ThrowButtonDef, as its lookup
function (`none`: no entry for the key). -/
abbrev ThrowButtons (M : Type) := ButtonHandle → Option (ThrowButtonDef M)

namespace ThrowButtons

variable {M : Type}

/-- The empty map (also the result of `clear()`). -/
def empty : ThrowButtons M := fun _ => none

/-- The lookup `find(button)`; `none` stands for `end()`. -/
def find (tb : ThrowButtons M) (button : ButtonHandle) : Option (ThrowButtonDef M) :=
  tb button

/-- Overwrites the vector stored under `button` (a write through the reference
that `operator[]` or `find` gave). -/
def store (tb : ThrowButtons M) (button : ButtonHandle) (d : ThrowButtonDef M) :
    ThrowButtons M :=
  fun b => if b = button then some d else tb b

/-- The `operator[]` of the map: an absent key is first inserted with an empty
vector; gives the map after the access and the vector the reference denotes. -/
def index (tb : ThrowButtons M) (button : ButtonHandle) :
    ThrowButtons M × ThrowButtonDef M :=
  match tb button with
  | some d => (tb, d)
  | none => (store tb button [], [])

/-- The `erase(ti)` of the map: removes the entry of `button`. -/
def erase (tb : ThrowButtons M) (button : ButtonHandle) : ThrowButtons M :=
  fun b => if b = button then none else tb b

end ThrowButtons

/-- ButtonEvent::Type. -/
inductive ButtonEventType where
  | T_down
  | T_resume_down
  | T_up
  | T_repeat
  | T_keystroke
  | T_candidate
  | T_move
  | T_raw_down
  | T_raw_up
deriving DecidableEq, Repr

/-- Time stamps are values the thrower only copies into event parameters, never
computes with; they are embedded as uninterpreted codes. -/
abbrev Time := Nat

/-- Wide strings, as their sequence of character codes. -/
abbrev WString := List Nat

/-- ButtonEvent: the fields of a button event that ButtonThrower reads. -/
structure ButtonEvent where
  _button : ButtonHandle
  _keycode : Nat
  _candidate_string : WString
  _type : ButtonEventType
  _time : Time
deriving DecidableEq, Repr

/-- EventParameter: a value attached to a thrown event. -/
inductive EventParameter where
  | double (t : Time)
  | string (s : String)
  | wstring (s : WString)
  | ptr (id : Nat)
deriving DecidableEq, Repr

/-- Event: a named event with its parameters, in the order they were added. -/
structure Event where
  name : String
  parameters : List EventParameter
deriving DecidableEq, Repr

/-- The `add_parameter` of Event: appends one parameter. -/
def Event.add_parameter (event : Event) (p : EventParameter) : Event :=
  Event.mk event.name (event.parameters ++ [p])

/-- The data members of ButtonThrower. -/
structure ButtonThrower (M : Type) where
  _button_events : List ButtonEvent
  _specific_flag : Bool
  _time_flag : Bool
  _throw_buttons_active : Bool
  _prefix : String
  _button_down_event : String
  _button_repeat_event : String
  _button_up_event : String
  _raw_button_down_event : String
  _raw_button_up_event : String
  _keystroke_event : String
  _candidate_event : String
  _move_event : String
  _parameters : List EventParameter
  _mods : M
  _throw_buttons : ThrowButtons M

section ThrowSet

variable {M : Type}

/-- The constructor: a fresh empty ButtonEventList, `_specific_flag` true,
`_time_flag` and `_throw_buttons_active` false; the other members are
default-constructed (`mods0` is the default-constructed ModifierButtons). -/
def ButtonThrower.create (mods0 : M) : ButtonThrower M :=
  ButtonThrower.mk [] true false false "" "" "" "" "" "" "" "" "" [] mods0 ThrowButtons.empty

/-- Replaces the `_throw_buttons` member. -/
def ButtonThrower.with_throw_buttons (self : ButtonThrower M) (tb : ThrowButtons M) :
    ButtonThrower M :=
  ButtonThrower.mk self._button_events self._specific_flag self._time_flag
    self._throw_buttons_active (ButtonThrower._prefix self) self._button_down_event
    self._button_repeat_event self._button_up_event self._raw_button_down_event
    self._raw_button_up_event self._keystroke_event self._candidate_event self._move_event
    self._parameters self._mods tb

/-- ButtonThrower::add_throw_button.  `_throw_buttons[button]` is taken first
(inserting an empty vector for an absent button); the vector is scanned for an
entry that `mods` matches, and `mods` is pushed at the back if there is none. -/
def add_throw_button (ops : ModifierButtonsOps M) (self : ButtonThrower M) (mods : M)
    (button : ButtonHandle) : Bool × ButtonThrower M :=
  let acc := ThrowButtons.index self._throw_buttons button
  if acc.2.any (fun d => ops.«matches» mods d) then
    (false, self.with_throw_buttons acc.1)
  else
    (true, self.with_throw_buttons (ThrowButtons.store acc.1 button (acc.2 ++ [mods])))

/-- The scan of remove_throw_button over one vector: the vector with the first
entry that `mods` matches erased, or `none` when the scan reaches the end. -/
def remove_scan (ops : ModifierButtonsOps M) (mods : M) :
    ThrowButtonDef M → Option (ThrowButtonDef M)
  | [] => none
  | d :: rest =>
    if ops.«matches» mods d then some rest
    else (remove_scan ops mods rest).map (fun rest1 => d :: rest1)

/-- ButtonThrower::remove_throw_button. -/
def remove_throw_button (ops : ModifierButtonsOps M) (self : ButtonThrower M) (mods : M)
    (button : ButtonHandle) : Bool × ButtonThrower M :=
  match ThrowButtons.find self._throw_buttons button with
  | none => (false, self)
  | some d =>
    match remove_scan ops mods d with
    | some d1 =>
      if d1.isEmpty then
        (true, self.with_throw_buttons (ThrowButtons.erase self._throw_buttons button))
      else
        (true, self.with_throw_buttons (ThrowButtons.store self._throw_buttons button d1))
    | none => (false, self)

/-- ButtonThrower::has_throw_button(mods, button). -/
def has_throw_button (ops : ModifierButtonsOps M) (self : ButtonThrower M) (mods : M)
    (button : ButtonHandle) : Bool :=
  match ThrowButtons.find self._throw_buttons button with
  | none => false
  | some d => d.any (fun di => ops.«matches» mods di)

/-- ButtonThrower::has_throw_button(button), the overload without modifiers. -/
def has_throw_button1 (self : ButtonThrower M) (button : ButtonHandle) : Bool :=
  match ThrowButtons.find self._throw_buttons button with
  | none => false
  | some d => !d.isEmpty

/-- ButtonThrower::clear_throw_buttons. -/
def clear_throw_buttons (self : ButtonThrower M) : ButtonThrower M :=
  self.with_throw_buttons ThrowButtons.empty

/-- One call of the interface that edits the throw-button set. -/
inductive ThrowOp (M : Type) where
  | add (mods : M) (button : ButtonHandle)
  | remove (mods : M) (button : ButtonHandle)
  | clear

/-- The object after one call, its return value dropped. -/
def ThrowOp.apply (ops : ModifierButtonsOps M) (self : ButtonThrower M) :
    ThrowOp M → ButtonThrower M
  | .add mods button => (add_throw_button ops self mods button).2
  | .remove mods button => (remove_throw_button ops self mods button).2
  | .clear => clear_throw_buttons self

/-- The object after a sequence of calls, first call first. -/
def run_ops (ops : ModifierButtonsOps M) (self : ButtonThrower M) (calls : List (ThrowOp M)) :
    ButtonThrower M :=
  calls.foldl (ThrowOp.apply ops) self

/-- The states reachable from a freshly constructed ButtonThrower by calls of
add_throw_button, remove_throw_button and clear_throw_buttons. -/
def Reachable (ops : ModifierButtonsOps M) (self : ButtonThrower M) : Prop :=
  ∃ (mods0 : M) (calls : List (ThrowOp M)), self = run_ops ops (ButtonThrower.create mods0) calls

/-- Whether a call can leave the entries of `button` in place whatever the
state: true for add_throw_button and for remove_throw_button of another button,
false for clear_throw_buttons and for remove_throw_button of this button. -/
def ThrowOp.keeps (button : ButtonHandle) : ThrowOp M → Bool
  | .add _ _ => true
  | .remove _ b => decide (b ≠ button)
  | .clear => false

/-- In every stored vector, no entry is matched by an entry stored after it. -/
def Distinct (ops : ModifierButtonsOps M) (self : ButtonThrower M) : Prop :=
  ∀ button d, ThrowButtons.find self._throw_buttons button = some d →
    d.Pairwise (fun x y => ops.«matches» y x = false)

end ThrowSet

/-- One recorded call of do_specific_event or do_general_event, with the
arguments it was given. -/
inductive Call where
  | specific (event_name : String) (time : Time)
  | general (button_event : ButtonEvent) (button_name : String)
deriving DecidableEq, Repr

/-- The running state of do_transmit_data: the object, the calls of
do_specific_event and do_general_event made so far, and the events given to
`throw_event` so far, oldest first. -/
structure Run (M : Type) where
  self : ButtonThrower M
  calls : List Call
  thrown : List Event

section Transmit

variable {M : Type}

/-- Replaces the `_mods` member. -/
def ButtonThrower.with_mods (self : ButtonThrower M) (mods : M) : ButtonThrower M :=
  ButtonThrower.mk self._button_events self._specific_flag self._time_flag
    self._throw_buttons_active (ButtonThrower._prefix self) self._button_down_event
    self._button_repeat_event self._button_up_event self._raw_button_down_event
    self._raw_button_up_event self._keystroke_event self._candidate_event self._move_event
    self._parameters mods self._throw_buttons

/-- Replaces the `_button_events` member. -/
def ButtonThrower.with_button_events (self : ButtonThrower M) (evs : List ButtonEvent) :
    ButtonThrower M :=
  ButtonThrower.mk evs self._specific_flag self._time_flag
    self._throw_buttons_active (ButtonThrower._prefix self) self._button_down_event
    self._button_repeat_event self._button_up_event self._raw_button_down_event
    self._raw_button_up_event self._keystroke_event self._candidate_event self._move_event
    self._parameters self._mods self._throw_buttons

/-- The statement `_button_events->add_event(be)`. -/
def Run.add_event (r : Run M) (be : ButtonEvent) : Run M :=
  Run.mk (r.self.with_button_events (r.self._button_events ++ [be])) r.calls r.thrown

/-- Stores a new value of `_mods`. -/
def Run.set_mods (r : Run M) (mods : M) : Run M :=
  Run.mk (r.self.with_mods mods) r.calls r.thrown

/-- The loop that adds the user parameters `_parameters` to an event. -/
def add_user_parameters (self : ButtonThrower M) (event : Event) : Event :=
  self._parameters.foldl Event.add_parameter event

/-- ButtonThrower::do_specific_event. -/
def do_specific_event (r : Run M) (event_name : String) (time : Time) : Run M :=
  let calls := r.calls ++ [Call.specific event_name time]
  if r.self._specific_flag then
    let event := Event.mk ( ButtonThrower._prefix r.self ++ event_name) []
    let event := if r.self._time_flag then event.add_parameter (.double time) else event
    let event := add_user_parameters r.self event
    Run.mk r.self calls (r.thrown ++ [event])
  else
    Run.mk r.self calls r.thrown

/-- The first switch of do_general_event: the configured name of the general
event for this type of button event (T_resume_down leaves it empty). -/
def general_event_name (self : ButtonThrower M) : ButtonEventType → String
  | .T_down => self._button_down_event
  | .T_resume_down => ""
  | .T_up => self._button_up_event
  | .T_repeat => self._button_repeat_event
  | .T_keystroke => self._keystroke_event
  | .T_candidate => self._candidate_event
  | .T_move => self._move_event
  | .T_raw_down => self._raw_button_down_event
  | .T_raw_up => self._raw_button_up_event

/-- The second switch of do_general_event: the parameter that depends on the
type of the button event (none for T_move). -/
def general_event_parameter (button_event : ButtonEvent) (button_name : String)
    (event : Event) : Event :=
  match button_event._type with
  | .T_down | .T_resume_down | .T_up | .T_repeat | .T_raw_down | .T_raw_up =>
    event.add_parameter (.string button_name)
  | .T_keystroke => event.add_parameter (.wstring [button_event._keycode])
  | .T_candidate => event.add_parameter (.wstring button_event._candidate_string)
  | .T_move => event

/-- ButtonThrower::do_general_event. -/
def do_general_event (r : Run M) (button_event : ButtonEvent) (button_name : String) :
    Run M :=
  let calls := r.calls ++ [Call.general button_event button_name]
  let event_name := general_event_name r.self button_event._type
  if event_name.isEmpty then
    Run.mk r.self calls r.thrown
  else
    let event := Event.mk event_name []
    let event := if r.self._time_flag then event.add_parameter (.double button_event._time)
      else event
    let event := general_event_parameter button_event button_name event
    let event := add_user_parameters r.self event
    Run.mk r.self calls (r.thrown ++ [event])

/-- The body of the loop of do_transmit_data, for the event `be`.  `get_name`
is the button registry behind `ButtonHandle::get_name`. -/
def transmit_event (ops : ModifierButtonsOps M) (get_name : ButtonHandle → String)
    (r : Run M) (be : ButtonEvent) : Run M :=
  let event_name := get_name be._button
  if be._type = .T_down ∨ be._type = .T_repeat then
    let down := ops.button_down r.self._mods be._button
    let r := r.set_mods down.2
    let event_name :=
      if !down.1 then ModifierButtonsOps.get_prefix ops r.self._mods ++ event_name
      else event_name
    if !r.self._throw_buttons_active || has_throw_button ops r.self r.self._mods be._button then
      let r :=
        if be._type = .T_repeat then do_specific_event r (event_name ++ "-repeat") be._time
        else do_specific_event r event_name be._time
      do_general_event r be event_name
    else
      r.add_event be
  else if be._type = .T_resume_down then
    r.set_mods (ops.button_down r.self._mods be._button).2
  else if be._type = .T_up then
    let r := r.set_mods (ops.button_up r.self._mods be._button).2
    let r :=
      if !r.self._throw_buttons_active || has_throw_button1 r.self be._button then
        do_general_event (do_specific_event r (event_name ++ "-up") be._time) be event_name
      else r
    if r.self._throw_buttons_active then r.add_event be else r
  else if be._type = .T_raw_down then
    if !r.self._throw_buttons_active || has_throw_button1 r.self be._button then
      do_general_event (do_specific_event r ("raw-" ++ event_name) be._time) be event_name
    else
      r.add_event be
  else if be._type = .T_raw_up then
    let r :=
      if !r.self._throw_buttons_active || has_throw_button1 r.self be._button then
        do_general_event (do_specific_event r ("raw-" ++ event_name ++ "-up") be._time)
          be event_name
      else r
    if r.self._throw_buttons_active then r.add_event be else r
  else
    do_general_event (r.add_event be) be ""

/-- The loop of do_transmit_data over the events of the input list, in order. -/
def transmit_loop (ops : ModifierButtonsOps M) (get_name : ButtonHandle → String)
    (r : Run M) (button_events : List ButtonEvent) : Run M :=
  button_events.foldl (transmit_event ops get_name) r

/-- ButtonThrower::do_transmit_data.  `input` is `none` when the input port
holds no data.  The result holds the object afterwards, whose `_button_events`
is the list set on the output port, and the calls made and events thrown. -/
def do_transmit_data (ops : ModifierButtonsOps M) (get_name : ButtonHandle → String)
    (self : ButtonThrower M) (input : Option (List ButtonEvent)) : Run M :=
  let r := Run.mk (self.with_button_events []) [] []
  match input with
  | some button_events => transmit_loop ops get_name r button_events
  | none => r

/-- The ButtonEventList that do_transmit_data sets on the output port. -/
def Run.output (r : Run M) : List ButtonEvent :=
  r.self._button_events

end Transmit

/-- A recorded call without the name it was given: do_specific_event with its
time, or do_general_event with its button event. -/
inductive CallKind where
  | specific (time : Time)
  | general (button_event : ButtonEvent)
deriving DecidableEq, Repr

/-- Forgets the name argument of a recorded call. -/
def Call.kind : Call → CallKind
  | .specific _ time => .specific time
  | .general button_event _ => .general button_event

/-- The button event types for which an event can be thrown: T_down, T_repeat,
T_up, T_raw_down and T_raw_up. -/
def ButtonEventType.throwable : ButtonEventType → Bool
  | .T_down | .T_repeat | .T_up | .T_raw_down | .T_raw_up => true
  | _ => false

/-- The types that are not button types: T_keystroke, T_candidate and T_move. -/
def ButtonEventType.non_button : ButtonEventType → Bool
  | .T_keystroke | .T_candidate | .T_move => true
  | _ => false

/-- The calls of the processing branch for one event, without names:
do_specific_event followed by do_general_event for a throwable type, nothing
for T_resume_down, and do_general_event alone for the other types. -/
def processing_calls (be : ButtonEvent) : List CallKind :=
  if be._type.throwable then [.specific be._time, .general be]
  else if be._type = .T_resume_down then []
  else [.general be]

/-- The modifier tracking as the specification words it, for one event:
button_down for a T_down, T_repeat or T_resume_down event, button_up for a T_up
event, and no change for raw and non-button events.  It is compared with what
`transmit_event` does to `_mods`. -/
def spec_track_modifiers {M : Type} (ops : ModifierButtonsOps M) (mods : M)
    (be : ButtonEvent) : M :=
  match be._type with
  | .T_down | .T_repeat | .T_resume_down => (ops.button_down mods be._button).2
  | .T_up => (ops.button_up mods be._button).2
  | .T_raw_down | .T_raw_up | .T_keystroke | .T_candidate | .T_move => mods

/-- A ButtonThrower like the freshly constructed one, with
`_throw_buttons_active` set to true. -/
def sampleActive : ButtonThrower Nat :=
  ButtonThrower.mk [] true false true "" "" "" "" "" "" "" "" "" [] 0 ThrowButtons.empty

/-- A button event of the given type for the button of the given index, at time 7. -/
def sampleEvent (t : ButtonEventType) (i : Nat) : ButtonEvent :=
  ButtonEvent.mk ⟨i⟩ 0 [] t 7

/-- A small concrete ModifierButtons for evaluating the definitions: it tracks
the buttons of index 0 (shift), 1 (control) and 2 (alt) in a bitmask, two
objects match when their bitmasks are equal, and the prefix names the tracked
buttons that are down. -/
def sampleOps : ModifierButtonsOps Nat where
  «matches» := fun a b => a == b
  button_down := fun m b => if b.index < 3 then (true, m ||| 2 ^ b.index) else (false, m)
  button_up := fun m b =>
    if b.index < 3 then (true, if m.testBit b.index then m - 2 ^ b.index else m) else (false, m)
  get_prefix := fun m =>
    (if m.testBit 0 then "shift-" else "") ++ (if m.testBit 1 then "control-" else "")
      ++ (if m.testBit 2 then "alt-" else "")

/-- A small concrete button registry for evaluating the definitions. -/
def sampleName (b : ButtonHandle) : String :=
  if b.index = 0 then "shift" else if b.index = 1 then "control"
  else if b.index = 2 then "alt" else if b.index = 3 then "a" else "b"

/-! ## Lemmas on the throw-button set -/

section ThrowSetLemmas

variable {M : Type}

theorem with_throw_buttons_self (self : ButtonThrower M) :
    self.with_throw_buttons self._throw_buttons = self := by
  cases self; rfl

@[simp] theorem with_throw_buttons_throw_buttons (self : ButtonThrower M)
    (tb : ThrowButtons M) : (self.with_throw_buttons tb)._throw_buttons = tb := rfl

@[simp] theorem find_store_same (tb : ThrowButtons M) (button : ButtonHandle)
    (d : ThrowButtonDef M) : ThrowButtons.find (ThrowButtons.store tb button d) button = some d := by
  simp [ThrowButtons.find, ThrowButtons.store]

theorem find_store_other (tb : ThrowButtons M) (button b : ButtonHandle)
    (d : ThrowButtonDef M) (hb : b ≠ button) :
    ThrowButtons.find (ThrowButtons.store tb button d) b = ThrowButtons.find tb b := by
  simp [ThrowButtons.find, ThrowButtons.store, hb]

@[simp] theorem find_erase_same (tb : ThrowButtons M) (button : ButtonHandle) :
    ThrowButtons.find (ThrowButtons.erase tb button) button = none := by
  simp [ThrowButtons.find, ThrowButtons.erase]

theorem find_erase_other (tb : ThrowButtons M) (button b : ButtonHandle) (hb : b ≠ button) :
    ThrowButtons.find (ThrowButtons.erase tb button) b = ThrowButtons.find tb b := by
  simp [ThrowButtons.find, ThrowButtons.erase, hb]

theorem index_of_some (tb : ThrowButtons M) (button : ButtonHandle) (d : ThrowButtonDef M)
    (h : ThrowButtons.find tb button = some d) : ThrowButtons.index tb button = (tb, d) := by
  simp only [ThrowButtons.find] at h
  simp [ThrowButtons.index, h]

theorem index_of_none (tb : ThrowButtons M) (button : ButtonHandle)
    (h : ThrowButtons.find tb button = none) :
    ThrowButtons.index tb button = (ThrowButtons.store tb button [], []) := by
  simp only [ThrowButtons.find] at h
  simp [ThrowButtons.index, h]

/-- The value of add_throw_button when the button has an entry. -/
theorem add_throw_button_of_some (ops : ModifierButtonsOps M) (self : ButtonThrower M)
    (mods : M) (button : ButtonHandle) (d : ThrowButtonDef M)
    (h : ThrowButtons.find self._throw_buttons button = some d) :
    add_throw_button ops self mods button =
      if d.any (fun e => ops.«matches» mods e) then (false, self)
      else (true, self.with_throw_buttons (ThrowButtons.store self._throw_buttons button (d ++ [mods]))) := by
  simp only [add_throw_button, index_of_some _ _ _ h, with_throw_buttons_self]

/-- The value of add_throw_button when the button has no entry. -/
theorem add_throw_button_of_none (ops : ModifierButtonsOps M) (self : ButtonThrower M)
    (mods : M) (button : ButtonHandle)
    (h : ThrowButtons.find self._throw_buttons button = none) :
    add_throw_button ops self mods button =
      (true, self.with_throw_buttons (ThrowButtons.store self._throw_buttons button [mods])) := by
  have hs : ThrowButtons.store (ThrowButtons.store self._throw_buttons button []) button [mods]
      = ThrowButtons.store self._throw_buttons button [mods] := by
    funext b
    by_cases hb : b = button <;> simp [ThrowButtons.store, hb]
  simp [add_throw_button, index_of_none _ _ h, hs]

theorem remove_scan_isSome (ops : ModifierButtonsOps M) (mods : M) (d : ThrowButtonDef M) :
    (remove_scan ops mods d).isSome = d.any (fun e => ops.«matches» mods e) := by
  induction d with
  | nil => rfl
  | cons x rest ih =>
    by_cases hx : ops.«matches» mods x = true
    · simp [remove_scan, hx]
    · simp only [Bool.not_eq_true] at hx
      simp [remove_scan, hx, ih]

theorem remove_scan_eq_some (ops : ModifierButtonsOps M) (mods : M) (d d1 : ThrowButtonDef M)
    (h : remove_scan ops mods d = some d1) :
    ∃ pre x post, d = pre ++ x :: post ∧ (∀ y ∈ pre, ops.«matches» mods y = false) ∧
      ops.«matches» mods x = true ∧ d1 = pre ++ post := by
  induction d generalizing d1 with
  | nil => simp [remove_scan] at h
  | cons a rest ih =>
    by_cases ha : ops.«matches» mods a = true
    · simp only [remove_scan, ha, if_true, Option.some.injEq] at h
      exact ⟨[], a, rest, rfl, by simp, ha, by simp [h]⟩
    · simp only [Bool.not_eq_true] at ha
      simp only [remove_scan, ha, Bool.false_eq_true, if_false] at h
      cases hr1 : remove_scan ops mods rest with
      | none => simp [hr1] at h
      | some r1 =>
      rw [hr1] at h
      have h5 : a :: r1 = d1 := Option.some.inj h
      subst h5
      obtain ⟨pre, x, post, h1, h2, h3, h4⟩ := ih r1 hr1
      refine ⟨a :: pre, x, post, by simp [h1], ?_, h3, by simp [h4]⟩
      intro y hy
      rcases List.mem_cons.mp hy with rfl | hy
      · exact ha
      · exact h2 y hy

theorem has_throw_button_of_some (ops : ModifierButtonsOps M) (self : ButtonThrower M)
    (mods : M) (button : ButtonHandle) (d : ThrowButtonDef M)
    (h : ThrowButtons.find self._throw_buttons button = some d) :
    has_throw_button ops self mods button = d.any (fun e => ops.«matches» mods e) := by
  simp [has_throw_button, h]

theorem has_throw_button_of_none (ops : ModifierButtonsOps M) (self : ButtonThrower M)
    (mods : M) (button : ButtonHandle)
    (h : ThrowButtons.find self._throw_buttons button = none) :
    has_throw_button ops self mods button = false := by
  simp [has_throw_button, h]

/-- What remove_throw_button does when it returns true. -/
theorem remove_throw_button_true (ops : ModifierButtonsOps M) (self : ButtonThrower M)
    (mods : M) (button : ButtonHandle)
    (h : (remove_throw_button ops self mods button).1 = true) :
    ∃ pre x post, ThrowButtons.find self._throw_buttons button = some (pre ++ x :: post) ∧
      (∀ y ∈ pre, ops.«matches» mods y = false) ∧ ops.«matches» mods x = true ∧
      ThrowButtons.find (remove_throw_button ops self mods button).2._throw_buttons button
        = (if (pre ++ post).isEmpty then none else some (pre ++ post)) ∧
      ∀ b, b ≠ button →
        ThrowButtons.find (remove_throw_button ops self mods button).2._throw_buttons b
          = ThrowButtons.find self._throw_buttons b := by
  unfold remove_throw_button at h ⊢
  cases hf : ThrowButtons.find self._throw_buttons button with
  | none => simp [hf] at h
  | some d =>
    cases hs : remove_scan ops mods d with
    | none => simp [hf, hs] at h
    | some d1 =>
      obtain ⟨pre, x, post, h1, h2, h3, h4⟩ := remove_scan_eq_some ops mods d d1 hs
      refine ⟨pre, x, post, by rw [h1], h2, h3, ?_, ?_⟩
      · subst h4
        by_cases he : (pre ++ post).isEmpty = true
        · simp [hs, he]
        · simp [hs, he]
      · intro b hb
        by_cases he : d1.isEmpty = true
        · simpa [hs, he] using find_erase_other self._throw_buttons button b hb
        · simpa [hs, he] using find_store_other self._throw_buttons button b d1 hb

/-- The return value of remove_throw_button is that of has_throw_button before. -/
theorem remove_throw_button_fst (ops : ModifierButtonsOps M) (self : ButtonThrower M)
    (mods : M) (button : ButtonHandle) :
    (remove_throw_button ops self mods button).1 = has_throw_button ops self mods button := by
  cases hf : ThrowButtons.find self._throw_buttons button with
  | none => simp [remove_throw_button, has_throw_button, hf]
  | some d =>
    have hs := remove_scan_isSome ops mods d
    simp only [remove_throw_button, has_throw_button, hf]
    cases hr : remove_scan ops mods d with
    | none => rw [hr] at hs; rw [← hs]; rfl
    | some d1 =>
      rw [hr] at hs
      rw [← hs]
      by_cases he : d1.isEmpty = true
      · simp [he]
      · simp [he]

/-- When remove_throw_button returns false it leaves the object as it was. -/
theorem remove_throw_button_false (ops : ModifierButtonsOps M) (self : ButtonThrower M)
    (mods : M) (button : ButtonHandle)
    (h : (remove_throw_button ops self mods button).1 = false) :
    (remove_throw_button ops self mods button).2 = self := by
  cases hf : ThrowButtons.find self._throw_buttons button with
  | none => simp [remove_throw_button, hf]
  | some d =>
    simp only [remove_throw_button, hf] at h ⊢
    cases hr : remove_scan ops mods d with
    | none => rfl
    | some d1 =>
      rw [hr] at h
      by_cases he : d1.isEmpty = true
      · simp [he] at h
      · simp [he] at h

theorem distinct_create (ops : ModifierButtonsOps M) (mods0 : M) :
    Distinct ops (ButtonThrower.create mods0) := by
  intro button d h
  simp [ButtonThrower.create, ThrowButtons.find, ThrowButtons.empty] at h

theorem distinct_clear (ops : ModifierButtonsOps M) (self : ButtonThrower M) :
    Distinct ops (clear_throw_buttons self) := by
  intro button d h
  simp [clear_throw_buttons, ThrowButtons.find, ThrowButtons.empty] at h

theorem distinct_add (ops : ModifierButtonsOps M) (self : ButtonThrower M) (mods : M)
    (button : ButtonHandle) (hd : Distinct ops self) :
    Distinct ops (add_throw_button ops self mods button).2 := by
  intro b d h
  cases hf : ThrowButtons.find self._throw_buttons button with
  | none =>
    rw [add_throw_button_of_none ops self mods button hf] at h
    by_cases hb : b = button
    · subst hb
      simp only [with_throw_buttons_throw_buttons, find_store_same, Option.some.injEq] at h
      subst h
      simp
    · simp only [with_throw_buttons_throw_buttons] at h
      rw [find_store_other _ _ _ _ hb] at h
      exact hd b d h
  | some d0 =>
    rw [add_throw_button_of_some ops self mods button d0 hf] at h
    by_cases hany : d0.any (fun e => ops.«matches» mods e) = true
    · rw [if_pos hany] at h
      exact hd b d h
    · rw [if_neg hany] at h
      by_cases hb : b = button
      · subst hb
        simp only [with_throw_buttons_throw_buttons, find_store_same, Option.some.injEq] at h
        subst h
        rw [List.pairwise_append]
        refine ⟨hd b d0 hf, by simp, ?_⟩
        intro x hx y hy
        rw [List.mem_singleton] at hy
        subst hy
        cases hm : ops.«matches» y x with
        | false => rfl
        | true => exact absurd (List.any_eq_true.mpr ⟨x, hx, hm⟩) hany
      · simp only [with_throw_buttons_throw_buttons] at h
        rw [find_store_other _ _ _ _ hb] at h
        exact hd b d h

theorem distinct_remove (ops : ModifierButtonsOps M) (self : ButtonThrower M) (mods : M)
    (button : ButtonHandle) (hd : Distinct ops self) :
    Distinct ops (remove_throw_button ops self mods button).2 := by
  cases hr : (remove_throw_button ops self mods button).1 with
  | false => rw [remove_throw_button_false ops self mods button hr]; exact hd
  | true =>
    obtain ⟨pre, x, post, h1, _, _, h4, h5⟩ := remove_throw_button_true ops self mods button hr
    intro b d h
    by_cases hb : b = button
    · subst hb
      rw [h4] at h
      by_cases he : (pre ++ post).isEmpty = true
      · simp [he] at h
      · simp only [he, Bool.false_eq_true, if_false, Option.some.injEq] at h
        subst h
        have hp := hd b _ h1
        exact hp.sublist (List.Sublist.append_left (List.sublist_cons_self x post) pre)
    · rw [h5 b hb] at h
      exact hd b d h

theorem distinct_run_ops (ops : ModifierButtonsOps M) (calls : List (ThrowOp M)) :
    ∀ self : ButtonThrower M, Distinct ops self → Distinct ops (run_ops ops self calls) := by
  induction calls with
  | nil => intro self hd; exact hd
  | cons c rest ih =>
    intro self hd
    show Distinct ops (run_ops ops (ThrowOp.apply ops self c) rest)
    apply ih
    cases c with
    | add mods button => exact distinct_add ops self mods button hd
    | remove mods button => exact distinct_remove ops self mods button hd
    | clear => exact distinct_clear ops self

theorem distinct_of_reachable (ops : ModifierButtonsOps M) (self : ButtonThrower M)
    (h : Reachable ops self) : Distinct ops self := by
  obtain ⟨mods0, calls, rfl⟩ := h
  exact distinct_run_ops ops calls _ (distinct_create ops mods0)

theorem has_throw_button1_add_same (ops : ModifierButtonsOps M) (self : ButtonThrower M)
    (mods : M) (button : ButtonHandle) :
    has_throw_button1 (add_throw_button ops self mods button).2 button = true := by
  cases h : ThrowButtons.find self._throw_buttons button with
  | none =>
    rw [add_throw_button_of_none ops self mods button h]
    simp [has_throw_button1]
  | some d =>
    rw [add_throw_button_of_some ops self mods button d h]
    by_cases hany : d.any (fun e => ops.«matches» mods e) = true
    · rw [if_pos hany]
      obtain ⟨e, he, _⟩ := List.any_eq_true.mp hany
      cases d with
      | nil => simp at he
      | cons a rest => simp [has_throw_button1, h]
    · rw [if_neg hany]
      simp [has_throw_button1]

theorem has_throw_button1_add_other (ops : ModifierButtonsOps M) (self : ButtonThrower M)
    (mods : M) (button b : ButtonHandle) (hb : b ≠ button) :
    has_throw_button1 (add_throw_button ops self mods button).2 b
      = has_throw_button1 self b := by
  cases h : ThrowButtons.find self._throw_buttons button with
  | none =>
    rw [add_throw_button_of_none ops self mods button h]
    simp only [has_throw_button1, with_throw_buttons_throw_buttons]
    rw [find_store_other _ _ _ _ hb]
  | some d =>
    rw [add_throw_button_of_some ops self mods button d h]
    by_cases hany : d.any (fun e => ops.«matches» mods e) = true
    · rw [if_pos hany]
    · rw [if_neg hany]
      simp only [has_throw_button1, with_throw_buttons_throw_buttons]
      rw [find_store_other _ _ _ _ hb]

theorem has_throw_button1_remove_other (ops : ModifierButtonsOps M) (self : ButtonThrower M)
    (mods : M) (button b : ButtonHandle) (hb : b ≠ button) :
    has_throw_button1 (remove_throw_button ops self mods button).2 b
      = has_throw_button1 self b := by
  cases hr : (remove_throw_button ops self mods button).1 with
  | false => rw [remove_throw_button_false ops self mods button hr]
  | true =>
    obtain ⟨_, _, _, _, _, _, _, h5⟩ := remove_throw_button_true ops self mods button hr
    simp only [has_throw_button1]
    rw [h5 b hb]

theorem has_throw_button1_kept (ops : ModifierButtonsOps M) (button : ButtonHandle)
    (post : List (ThrowOp M)) :
    ∀ self : ButtonThrower M, has_throw_button1 self button = true →
      (∀ c ∈ post, ThrowOp.keeps button c = true) →
      has_throw_button1 (run_ops ops self post) button = true := by
  induction post with
  | nil => intro self h _; exact h
  | cons c rest ih =>
    intro self h hk
    show has_throw_button1 (run_ops ops (ThrowOp.apply ops self c) rest) button = true
    apply ih
    · have hc := hk c (List.mem_cons_self c rest)
      cases c with
      | add m b =>
        by_cases hb : button = b
        · subst hb; exact has_throw_button1_add_same ops self m button
        · show has_throw_button1 (add_throw_button ops self m b).2 button = true
          rw [has_throw_button1_add_other ops self m b button hb]; exact h
      | remove m b =>
        have hb : button ≠ b := by
          intro e
          simp [ThrowOp.keeps, e] at hc
        show has_throw_button1 (remove_throw_button ops self m b).2 button = true
        rw [has_throw_button1_remove_other ops self m b button hb]; exact h
      | clear => simp [ThrowOp.keeps] at hc
    · intro c1 hc1
      exact hk c1 (List.mem_cons_of_mem c hc1)

theorem run_ops_append (ops : ModifierButtonsOps M) (self : ButtonThrower M)
    (l1 l2 : List (ThrowOp M)) :
    run_ops ops self (l1 ++ l2) = run_ops ops (run_ops ops self l1) l2 := by
  simp [run_ops, List.foldl_append]

end ThrowSetLemmas

/-! ## Lemmas on do_transmit_data -/

section TransmitLemmas

variable {M : Type}

@[simp] theorem do_specific_event_self (r : Run M) (n : String) (t : Time) :
    (do_specific_event r n t).self = r.self := by
  unfold do_specific_event; split <;> rfl

@[simp] theorem do_specific_event_calls (r : Run M) (n : String) (t : Time) :
    (do_specific_event r n t).calls = r.calls ++ [Call.specific n t] := by
  unfold do_specific_event; split <;> rfl

@[simp] theorem do_general_event_self (r : Run M) (be : ButtonEvent) (n : String) :
    (do_general_event r be n).self = r.self := by
  by_cases h : (general_event_name r.self be._type).isEmpty = true <;>
    simp [do_general_event, h]

@[simp] theorem do_general_event_calls (r : Run M) (be : ButtonEvent) (n : String) :
    (do_general_event r be n).calls = r.calls ++ [Call.general be n] := by
  by_cases h : (general_event_name r.self be._type).isEmpty = true <;>
    simp [do_general_event, h]

@[simp] theorem add_event_calls (r : Run M) (be : ButtonEvent) :
    (r.add_event be).calls = r.calls := rfl

@[simp] theorem add_event_thrown (r : Run M) (be : ButtonEvent) :
    (r.add_event be).thrown = r.thrown := rfl

@[simp] theorem add_event_output (r : Run M) (be : ButtonEvent) :
    (r.add_event be).self._button_events = r.self._button_events ++ [be] := rfl

@[simp] theorem add_event_active (r : Run M) (be : ButtonEvent) :
    (r.add_event be).self._throw_buttons_active = r.self._throw_buttons_active := rfl

@[simp] theorem add_event_throw_buttons (r : Run M) (be : ButtonEvent) :
    (r.add_event be).self._throw_buttons = r.self._throw_buttons := rfl

@[simp] theorem add_event_mods (r : Run M) (be : ButtonEvent) :
    (r.add_event be).self._mods = r.self._mods := rfl

@[simp] theorem set_mods_calls (r : Run M) (m : M) : (r.set_mods m).calls = r.calls := rfl

@[simp] theorem set_mods_thrown (r : Run M) (m : M) : (r.set_mods m).thrown = r.thrown := rfl

@[simp] theorem set_mods_output (r : Run M) (m : M) :
    (r.set_mods m).self._button_events = r.self._button_events := rfl

@[simp] theorem set_mods_active (r : Run M) (m : M) :
    (r.set_mods m).self._throw_buttons_active = r.self._throw_buttons_active := rfl

@[simp] theorem set_mods_throw_buttons (r : Run M) (m : M) :
    (r.set_mods m).self._throw_buttons = r.self._throw_buttons := rfl

@[simp] theorem set_mods_mods (r : Run M) (m : M) : (r.set_mods m).self._mods = m := rfl

/-- The loop body changes neither `_throw_buttons_active` nor `_throw_buttons`. -/
theorem transmit_event_config (ops : ModifierButtonsOps M) (get_name : ButtonHandle → String)
    (r : Run M) (be : ButtonEvent) :
    (transmit_event ops get_name r be).self._throw_buttons_active
        = r.self._throw_buttons_active ∧
    (transmit_event ops get_name r be).self._throw_buttons = r.self._throw_buttons := by
  unfold transmit_event
  simp only []
  split_ifs <;> simp

theorem transmit_loop_config (ops : ModifierButtonsOps M) (get_name : ButtonHandle → String)
    (evs : List ButtonEvent) :
    ∀ r : Run M, (transmit_loop ops get_name r evs).self._throw_buttons_active
        = r.self._throw_buttons_active ∧
      (transmit_loop ops get_name r evs).self._throw_buttons = r.self._throw_buttons := by
  induction evs with
  | nil => intro r; exact ⟨rfl, rfl⟩
  | cons be rest ih =>
    intro r
    show (transmit_loop ops get_name (transmit_event ops get_name r be) rest).self._throw_buttons_active
        = _ ∧ (transmit_loop ops get_name (transmit_event ops get_name r be) rest).self._throw_buttons = _
    rw [(ih _).1, (ih _).2]
    exact transmit_event_config ops get_name r be

theorem transmit_loop_append (ops : ModifierButtonsOps M) (get_name : ButtonHandle → String)
    (r : Run M) (l1 l2 : List ButtonEvent) :
    transmit_loop ops get_name r (l1 ++ l2)
      = transmit_loop ops get_name (transmit_loop ops get_name r l1) l2 := by
  simp [transmit_loop, List.foldl_append]

/-- One step of the loop when `_throw_buttons_active` is false. -/
theorem transmit_event_inactive (ops : ModifierButtonsOps M) (get_name : ButtonHandle → String)
    (r : Run M) (be : ButtonEvent) (h : r.self._throw_buttons_active = false) :
    (transmit_event ops get_name r be).self._button_events
        = r.self._button_events ++ (if be._type.non_button then [be] else []) ∧
    (transmit_event ops get_name r be).calls.map Call.kind
        = r.calls.map Call.kind ++ processing_calls be := by
  obtain ⟨b, k, c, t, tm⟩ := be
  cases t <;>
    simp [transmit_event, h, processing_calls, ButtonEventType.throwable,
      ButtonEventType.non_button, Call.kind]

theorem transmit_loop_inactive (ops : ModifierButtonsOps M) (get_name : ButtonHandle → String)
    (evs : List ButtonEvent) :
    ∀ r : Run M, r.self._throw_buttons_active = false →
      (transmit_loop ops get_name r evs).self._button_events
          = r.self._button_events ++ evs.filter (fun be => be._type.non_button) ∧
      (transmit_loop ops get_name r evs).calls.map Call.kind
          = r.calls.map Call.kind ++ evs.flatMap processing_calls := by
  induction evs with
  | nil => intro r _; simp [transmit_loop]
  | cons be rest ih =>
    intro r h
    have hstep := transmit_event_inactive ops get_name r be h
    have hact := (transmit_event_config ops get_name r be).1
    rw [h] at hact
    have hrest := ih (transmit_event ops get_name r be) hact
    have hunf : transmit_loop ops get_name r (be :: rest)
        = transmit_loop ops get_name (transmit_event ops get_name r be) rest := rfl
    rw [hunf, hrest.1, hrest.2, hstep.1, hstep.2]
    constructor
    · by_cases hb : be._type.non_button = true
      · simp [List.filter_cons, hb]
      · simp [List.filter_cons, hb]
    · simp [List.flatMap_cons]

theorem has_throw_button_of_not_has1 (ops : ModifierButtonsOps M) (self : ButtonThrower M)
    (mods : M) (button : ButtonHandle) (h : has_throw_button1 self button = false) :
    has_throw_button ops self mods button = false := by
  unfold has_throw_button1 at h
  unfold has_throw_button
  cases hf : ThrowButtons.find self._throw_buttons button with
  | none => rfl
  | some d =>
    rw [hf] at h
    cases d with
    | nil => rfl
    | cons a rest => simp at h

theorem has_throw_button1_congr (s1 s2 : ButtonThrower M) (button : ButtonHandle)
    (h : s1._throw_buttons = s2._throw_buttons) :
    has_throw_button1 s1 button = has_throw_button1 s2 button := by
  simp [has_throw_button1, h]

theorem has_throw_button_congr (ops : ModifierButtonsOps M) (s1 s2 : ButtonThrower M) (mods : M)
    (button : ButtonHandle) (h : s1._throw_buttons = s2._throw_buttons) :
    has_throw_button ops s1 mods button = has_throw_button ops s2 mods button := by
  simp [has_throw_button, h]

/-- One step of the loop when `_throw_buttons_active` is true and the button of
the event has no entry: nothing is called or thrown, and the event is added to
the output list unless it is a T_resume_down event. -/
theorem transmit_event_active_not_listed (ops : ModifierButtonsOps M)
    (get_name : ButtonHandle → String) (r : Run M) (be : ButtonEvent)
    (hact : r.self._throw_buttons_active = true)
    (hno : has_throw_button1 r.self be._button = false)
    (hty : be._type.throwable = true ∨ be._type = .T_resume_down) :
    (transmit_event ops get_name r be).thrown = r.thrown ∧
    (transmit_event ops get_name r be).calls = r.calls ∧
    (transmit_event ops get_name r be).self._button_events
      = r.self._button_events ++ (if be._type = .T_resume_down then [] else [be]) := by
  have h1 : ∀ m, has_throw_button1 (r.set_mods m).self be._button = false := by
    intro m
    rw [has_throw_button1_congr (r.set_mods m).self r.self be._button rfl]; exact hno
  have h2 : ∀ m m1, has_throw_button ops (r.set_mods m).self m1 be._button = false :=
    fun m m1 => has_throw_button_of_not_has1 ops _ m1 _ (h1 m)
  obtain ⟨b, k, c, t, tm⟩ := be
  cases t <;>
    simp [ButtonEventType.throwable] at hty <;>
    simp [transmit_event, hact, hno, h1, h2]

/-- One step of the loop adds at most the event itself to the output list, and
never a T_resume_down event. -/
theorem transmit_event_output (ops : ModifierButtonsOps M) (get_name : ButtonHandle → String)
    (r : Run M) (be : ButtonEvent) :
    (transmit_event ops get_name r be).self._button_events = r.self._button_events ∨
    ((transmit_event ops get_name r be).self._button_events = r.self._button_events ++ [be] ∧
      be._type ≠ .T_resume_down) := by
  obtain ⟨b, k, c, t, tm⟩ := be
  cases t <;> simp only [transmit_event] <;> split_ifs <;> simp_all

theorem transmit_loop_output_mono (ops : ModifierButtonsOps M)
    (get_name : ButtonHandle → String) (evs : List ButtonEvent) (e : ButtonEvent) :
    ∀ r : Run M, e ∈ r.self._button_events →
      e ∈ (transmit_loop ops get_name r evs).self._button_events := by
  induction evs with
  | nil => intro r h; exact h
  | cons be rest ih =>
    intro r h
    show e ∈ (transmit_loop ops get_name (transmit_event ops get_name r be) rest).self._button_events
    apply ih
    rcases transmit_event_output ops get_name r be with h1 | ⟨h1, _⟩
    · rw [h1]; exact h
    · rw [h1]; exact List.mem_append_left _ h

theorem transmit_loop_output_no_resume (ops : ModifierButtonsOps M)
    (get_name : ButtonHandle → String) (evs : List ButtonEvent) :
    ∀ r : Run M, (∀ e ∈ r.self._button_events, e._type ≠ .T_resume_down) →
      ∀ e ∈ (transmit_loop ops get_name r evs).self._button_events,
        e._type ≠ .T_resume_down := by
  induction evs with
  | nil => intro r h; exact h
  | cons be rest ih =>
    intro r h
    show ∀ e ∈ (transmit_loop ops get_name (transmit_event ops get_name r be) rest).self._button_events,
      e._type ≠ .T_resume_down
    apply ih
    intro e he
    rcases transmit_event_output ops get_name r be with h1 | ⟨h1, h2⟩
    · rw [h1] at he; exact h e he
    · rw [h1] at he
      rcases List.mem_append.mp he with he | he
      · exact h e he
      · rw [List.mem_singleton] at he
        rw [he]; exact h2

/-- One step of the loop for a T_down or T_repeat event that is processed: the
two calls it makes, with the names they are given. -/
theorem transmit_event_down_calls (ops : ModifierButtonsOps M)
    (get_name : ButtonHandle → String) (r : Run M) (be : ButtonEvent)
    (hty : be._type = .T_down ∨ be._type = .T_repeat)
    (hproc : r.self._throw_buttons_active = false ∨
      has_throw_button ops r.self (ops.button_down r.self._mods be._button).2 be._button
        = true) :
    (transmit_event ops get_name r be).calls = r.calls ++
      [Call.specific
        ((if (ops.button_down r.self._mods be._button).1 then get_name be._button
          else ModifierButtonsOps.get_prefix ops (ops.button_down r.self._mods be._button).2
            ++ get_name be._button)
          ++ (if be._type = .T_repeat then "-repeat" else "")) be._time,
       Call.general be
        (if (ops.button_down r.self._mods be._button).1 then get_name be._button
          else ModifierButtonsOps.get_prefix ops (ops.button_down r.self._mods be._button).2
            ++ get_name be._button)] := by
  have hp : (!r.self._throw_buttons_active ||
      has_throw_button ops (r.set_mods (ops.button_down r.self._mods be._button).2).self
        (ops.button_down r.self._mods be._button).2 be._button) = true := by
    rw [has_throw_button_congr ops (r.set_mods (ops.button_down r.self._mods be._button).2).self
      r.self (ops.button_down r.self._mods be._button).2 be._button rfl]
    rcases hproc with h | h <;> simp [h]
  unfold transmit_event
  simp only [hty, if_true, set_mods_mods, set_mods_active, hp]
  by_cases hd : (ops.button_down r.self._mods be._button).1 = true <;>
    by_cases hr : be._type = .T_repeat <;> simp [hd, hr]

/-- One step of the loop for a T_up, T_raw_down or T_raw_up event that is
processed: the two calls it makes, with the names they are given. -/
theorem transmit_event_up_raw_calls (ops : ModifierButtonsOps M)
    (get_name : ButtonHandle → String) (r : Run M) (be : ButtonEvent)
    (hty : be._type = .T_up ∨ be._type = .T_raw_down ∨ be._type = .T_raw_up)
    (hproc : r.self._throw_buttons_active = false ∨
      has_throw_button1 r.self be._button = true) :
    (transmit_event ops get_name r be).calls = r.calls ++
      [Call.specific
        (if be._type = .T_up then get_name be._button ++ "-up"
          else if be._type = .T_raw_down then "raw-" ++ get_name be._button
          else "raw-" ++ get_name be._button ++ "-up") be._time,
       Call.general be (get_name be._button)] := by
  have hs : ∀ m, has_throw_button1 (r.set_mods m).self be._button
      = has_throw_button1 r.self be._button := fun _ => rfl
  obtain ⟨b, k, c, t, tm⟩ := be
  simp only at hproc hs
  cases t <;> simp at hty
  · rcases hproc with h | h
    · simp [transmit_event, h]
    · by_cases ha : r.self._throw_buttons_active = true <;> simp [transmit_event, h, hs, ha]
  · rcases hproc with h | h <;> simp [transmit_event, h]
  · rcases hproc with h | h
    · simp [transmit_event, h]
    · by_cases ha : r.self._throw_buttons_active = true <;> simp [transmit_event, h, ha]

/-- One step of the loop for a T_resume_down event: only `_mods` changes. -/
theorem transmit_event_resume_down (ops : ModifierButtonsOps M)
    (get_name : ButtonHandle → String) (r : Run M) (be : ButtonEvent)
    (hty : be._type = .T_resume_down) :
    transmit_event ops get_name r be
      = r.set_mods (ops.button_down r.self._mods be._button).2 := by
  simp [transmit_event, hty]

/-- What one step of the loop does to `_mods`. -/
theorem transmit_event_mods (ops : ModifierButtonsOps M) (get_name : ButtonHandle → String)
    (r : Run M) (be : ButtonEvent) :
    (transmit_event ops get_name r be).self._mods
      = spec_track_modifiers ops r.self._mods be := by
  obtain ⟨b, k, c, t, tm⟩ := be
  cases t <;> simp only [transmit_event, spec_track_modifiers] <;> split_ifs <;> simp_all

theorem transmit_loop_mods (ops : ModifierButtonsOps M) (get_name : ButtonHandle → String)
    (evs : List ButtonEvent) :
    ∀ r : Run M, (transmit_loop ops get_name r evs).self._mods
      = evs.foldl (spec_track_modifiers ops) r.self._mods := by
  induction evs with
  | nil => intro r; rfl
  | cons be rest ih =>
    intro r
    show (transmit_loop ops get_name (transmit_event ops get_name r be) rest).self._mods
      = rest.foldl (spec_track_modifiers ops) (spec_track_modifiers ops r.self._mods be)
    rw [ih, transmit_event_mods]

end TransmitLemmas

/-! ## The throw-button set: add, remove, has, clear -/

section ThrowSetClaims

variable {M : Type}

/-- C1: add_throw_button(mods, button) returns true exactly when no entry
stored for the button is matched by mods; when it returns true the list stored
for the button is the old list (empty if there was none) with mods appended and
the other buttons keep their entries; when it returns false the object, and so
the whole set of throw buttons, is unchanged. -/
theorem add_throw_button_spec (ops : ModifierButtonsOps M) (self : ButtonThrower M)
    (mods : M) (button : ButtonHandle) :
    ((add_throw_button ops self mods button).1 = true ↔
      ∀ d, ThrowButtons.find self._throw_buttons button = some d →
        ∀ entry ∈ d, ops.«matches» mods entry = false) ∧
    ((add_throw_button ops self mods button).1 = true →
      ThrowButtons.find (add_throw_button ops self mods button).2._throw_buttons button
        = some ((ThrowButtons.find self._throw_buttons button).getD [] ++ [mods]) ∧
      ∀ b, b ≠ button →
        ThrowButtons.find (add_throw_button ops self mods button).2._throw_buttons b
          = ThrowButtons.find self._throw_buttons b) ∧
    ((add_throw_button ops self mods button).1 = false →
      (add_throw_button ops self mods button).2 = self ∧
      (add_throw_button ops self mods button).2._throw_buttons = self._throw_buttons) := by
  cases h : ThrowButtons.find self._throw_buttons button with
  | none =>
    rw [add_throw_button_of_none ops self mods button h]
    refine ⟨by simp, fun _ => ⟨by simp, fun b hb => ?_⟩, by simp⟩
    simpa using find_store_other self._throw_buttons button b [mods] hb
  | some d =>
    rw [add_throw_button_of_some ops self mods button d h]
    by_cases hany : d.any (fun e => ops.«matches» mods e) = true
    · rw [if_pos hany]
      refine ⟨?_, by simp, by simp⟩
      simp only [Bool.false_eq_true, Option.some.injEq, false_iff, not_forall]
      obtain ⟨e, he, hm⟩ := List.any_eq_true.mp hany
      exact ⟨d, rfl, e, he, by simp [hm]⟩
    · rw [if_neg hany]
      refine ⟨?_, fun _ => ⟨by simp, fun b hb => ?_⟩, by simp⟩
      · simp only [Option.some.injEq, true_iff]
        intro d1 hd1 e he
        subst hd1
        cases hm : ops.«matches» mods e with
        | false => rfl
        | true => exact absurd (List.any_eq_true.mpr ⟨e, he, hm⟩) hany
      · simpa using find_store_other self._throw_buttons button b (d ++ [mods]) hb

/-- C1 at a concrete input: adding (mods 1, button 3) a second time returns
false and leaves the object as it was; adding (mods 2, button 3) returns true
and the list of button 3 becomes [1, 2]. -/
theorem add_throw_button_spec_witness :
    ((add_throw_button sampleOps (add_throw_button sampleOps (ButtonThrower.create 0) 1 ⟨3⟩).2
        1 ⟨3⟩).1 = false ∧
      (add_throw_button sampleOps (add_throw_button sampleOps (ButtonThrower.create 0) 1 ⟨3⟩).2
        1 ⟨3⟩).2 = (add_throw_button sampleOps (ButtonThrower.create 0) 1 ⟨3⟩).2) ∧
    ((add_throw_button sampleOps (add_throw_button sampleOps (ButtonThrower.create 0) 1 ⟨3⟩).2
        2 ⟨3⟩).1 = true ∧
      ThrowButtons.find
        (add_throw_button sampleOps (add_throw_button sampleOps (ButtonThrower.create 0) 1 ⟨3⟩).2
          2 ⟨3⟩).2._throw_buttons ⟨3⟩ = some [1, 2]) :=
  ⟨⟨by decide, ((add_throw_button_spec sampleOps
      (add_throw_button sampleOps (ButtonThrower.create 0) 1 ⟨3⟩).2 1 ⟨3⟩).2.2
        (by decide)).1⟩,
   ⟨by decide, ((add_throw_button_spec sampleOps
      (add_throw_button sampleOps (ButtonThrower.create 0) 1 ⟨3⟩).2 2 ⟨3⟩).2.1
        (by decide)).1⟩⟩

/-- C2: when ModifierButtons::matches is reflexive, after
add_throw_button(mods, button), whatever it returned, both
has_throw_button(mods, button) and has_throw_button(button) return true. -/
theorem has_throw_button_after_add (ops : ModifierButtonsOps M)
    (hrefl : ∀ m, ops.«matches» m m = true) (self : ButtonThrower M) (mods : M)
    (button : ButtonHandle) :
    has_throw_button ops (add_throw_button ops self mods button).2 mods button = true ∧
    has_throw_button1 (add_throw_button ops self mods button).2 button = true := by
  cases h : ThrowButtons.find self._throw_buttons button with
  | none =>
    rw [add_throw_button_of_none ops self mods button h]
    simp [has_throw_button, has_throw_button1, hrefl]
  | some d =>
    rw [add_throw_button_of_some ops self mods button d h]
    by_cases hany : d.any (fun e => ops.«matches» mods e) = true
    · rw [if_pos hany]
      refine ⟨by simp [has_throw_button, h, hany], ?_⟩
      obtain ⟨e, he, _⟩ := List.any_eq_true.mp hany
      cases d with
      | nil => simp at he
      | cons a rest => simp [has_throw_button1, h]
    · rw [if_neg hany]
      simp [has_throw_button, has_throw_button1, hrefl]

/-- C2 at a concrete input: adding (mods 1, button 3) twice to a fresh object. -/
theorem has_throw_button_after_add_witness :
    has_throw_button sampleOps
      (add_throw_button sampleOps (add_throw_button sampleOps (ButtonThrower.create 0) 1 ⟨3⟩).2
        1 ⟨3⟩).2 1 ⟨3⟩ = true ∧
    has_throw_button1
      (add_throw_button sampleOps (add_throw_button sampleOps (ButtonThrower.create 0) 1 ⟨3⟩).2
        1 ⟨3⟩).2 ⟨3⟩ = true :=
  has_throw_button_after_add sampleOps (by intro m; simp [sampleOps])
    (add_throw_button sampleOps (ButtonThrower.create 0) 1 ⟨3⟩).2 1 ⟨3⟩

/-- C3: remove_throw_button(mods, button) returns true exactly when
has_throw_button(mods, button) was true before the call; when it returns true
the list of the button was pre ++ x :: post with x the first entry that mods
matches, and it becomes pre ++ post (the entry of the button is erased when
that is empty) while the other buttons keep their entries; when it returns
false the object, and so the set of throw buttons, is unchanged. -/
theorem remove_throw_button_spec (ops : ModifierButtonsOps M) (self : ButtonThrower M)
    (mods : M) (button : ButtonHandle) :
    ((remove_throw_button ops self mods button).1 = true ↔
      has_throw_button ops self mods button = true) ∧
    ((remove_throw_button ops self mods button).1 = true →
      ∃ pre x post, ThrowButtons.find self._throw_buttons button = some (pre ++ x :: post) ∧
        (∀ y ∈ pre, ops.«matches» mods y = false) ∧ ops.«matches» mods x = true ∧
        ThrowButtons.find (remove_throw_button ops self mods button).2._throw_buttons button
          = (if (pre ++ post).isEmpty then none else some (pre ++ post)) ∧
        ∀ b, b ≠ button →
          ThrowButtons.find (remove_throw_button ops self mods button).2._throw_buttons b
            = ThrowButtons.find self._throw_buttons b) ∧
    ((remove_throw_button ops self mods button).1 = false →
      (remove_throw_button ops self mods button).2 = self ∧
      (remove_throw_button ops self mods button).2._throw_buttons = self._throw_buttons) := by
  refine ⟨by rw [remove_throw_button_fst], remove_throw_button_true ops self mods button, ?_⟩
  intro h
  rw [remove_throw_button_false ops self mods button h]
  exact ⟨rfl, rfl⟩

/-- C3 at a concrete input: with the list [1, 2] stored for button 3, removing
(mods 2, button 3) returns true and removing (mods 5, button 3) returns false
and leaves the object as it was. -/
theorem remove_throw_button_spec_witness :
    ((remove_throw_button sampleOps
        (run_ops sampleOps (ButtonThrower.create 0) [ThrowOp.add 1 ⟨3⟩, ThrowOp.add 2 ⟨3⟩])
        2 ⟨3⟩).1 = true ↔
      has_throw_button sampleOps
        (run_ops sampleOps (ButtonThrower.create 0) [ThrowOp.add 1 ⟨3⟩, ThrowOp.add 2 ⟨3⟩])
        2 ⟨3⟩ = true) ∧
    (remove_throw_button sampleOps
        (run_ops sampleOps (ButtonThrower.create 0) [ThrowOp.add 1 ⟨3⟩, ThrowOp.add 2 ⟨3⟩])
        5 ⟨3⟩).2
      = run_ops sampleOps (ButtonThrower.create 0) [ThrowOp.add 1 ⟨3⟩, ThrowOp.add 2 ⟨3⟩] :=
  ⟨(remove_throw_button_spec sampleOps
      (run_ops sampleOps (ButtonThrower.create 0) [ThrowOp.add 1 ⟨3⟩, ThrowOp.add 2 ⟨3⟩])
      2 ⟨3⟩).1,
   ((remove_throw_button_spec sampleOps
      (run_ops sampleOps (ButtonThrower.create 0) [ThrowOp.add 1 ⟨3⟩, ThrowOp.add 2 ⟨3⟩])
      5 ⟨3⟩).2.2 (by decide)).1⟩

/-- C4: when ModifierButtons::matches is an equivalence relation, in every
state reachable from a fresh ButtonThrower by add_throw_button,
remove_throw_button and clear_throw_buttons calls, a remove_throw_button(mods,
button) that returns true is followed by has_throw_button(mods, button)
returning false. -/
theorem has_throw_button_after_remove (ops : ModifierButtonsOps M)
    (hrefl : ∀ a, ops.«matches» a a = true)
    (hsymm : ∀ a b, ops.«matches» a b = true → ops.«matches» b a = true)
    (htrans : ∀ a b c, ops.«matches» a b = true → ops.«matches» b c = true →
      ops.«matches» a c = true)
    (self : ButtonThrower M) (hreach : Reachable ops self) (mods : M) (button : ButtonHandle)
    (hrem : (remove_throw_button ops self mods button).1 = true) :
    has_throw_button ops (remove_throw_button ops self mods button).2 mods button = false := by
  have _ := hrefl
  obtain ⟨pre, x, post, h1, h2, h3, h4, _⟩ := remove_throw_button_true ops self mods button hrem
  have hp := distinct_of_reachable ops self hreach button _ h1
  by_cases he : (pre ++ post).isEmpty = true
  · rw [if_pos he] at h4
    exact has_throw_button_of_none ops _ mods button h4
  · rw [if_neg he] at h4
    rw [has_throw_button_of_some ops _ mods button _ h4]
    cases hany : (pre ++ post).any (fun e => ops.«matches» mods e) with
    | false => rfl
    | true =>
      exfalso
      obtain ⟨y, hy, hm⟩ := List.any_eq_true.mp hany
      rcases List.mem_append.mp hy with hy | hy
      · rw [h2 y hy] at hm
        exact Bool.false_ne_true hm
      · have hyx : ops.«matches» y x = true := htrans y mods x (hsymm mods y hm) h3
        have hps := (List.pairwise_append.mp hp).2.1
        have := List.rel_of_pairwise_cons hps hy
        rw [hyx] at this
        exact Bool.noConfusion this

/-- C4 at a concrete input: (mods 1, button 3) added to a fresh object and
removed again. -/
theorem has_throw_button_after_remove_witness :
    has_throw_button sampleOps
      (remove_throw_button sampleOps
        (run_ops sampleOps (ButtonThrower.create 0) [ThrowOp.add 1 ⟨3⟩, ThrowOp.add 2 ⟨3⟩])
        1 ⟨3⟩).2 1 ⟨3⟩ = false :=
  has_throw_button_after_remove sampleOps (by intro a; simp [sampleOps])
    (by intro a b h; simp [sampleOps] at h ⊢; exact h.symm)
    (by intro a b c h1 h2; simp [sampleOps] at h1 h2 ⊢; exact h1.trans h2)
    (run_ops sampleOps (ButtonThrower.create 0) [ThrowOp.add 1 ⟨3⟩, ThrowOp.add 2 ⟨3⟩])
    ⟨0, [ThrowOp.add 1 ⟨3⟩, ThrowOp.add 2 ⟨3⟩], rfl⟩ 1 ⟨3⟩ (by decide)

/-- C5, as stated, fails: after add_throw_button(1, button 3) followed by
clear_throw_buttons on a fresh object, the sequence contains an add for button
3 and has_throw_button(button 3) returns false. -/
theorem has_throw_button1_ever_added_counterexample :
    ThrowOp.add 1 ⟨3⟩ ∈ [ThrowOp.add 1 ⟨3⟩, (ThrowOp.clear : ThrowOp Nat)] ∧
    has_throw_button1
      (run_ops sampleOps (ButtonThrower.create 0) [ThrowOp.add 1 ⟨3⟩, ThrowOp.clear]) ⟨3⟩
      = false :=
  ⟨List.mem_cons_self _ _, by decide⟩

/-- C5, amended: for every sequence of add_throw_button, remove_throw_button
and clear_throw_buttons calls on a fresh ButtonThrower that contains a call
add_throw_button(m, button) after which the sequence has no
clear_throw_buttons call and no remove_throw_button call for that button,
has_throw_button(button) returns true at the end of the sequence. -/
theorem has_throw_button1_after_add_kept (ops : ModifierButtonsOps M) (mods0 : M)
    (pre post : List (ThrowOp M)) (m : M) (button : ButtonHandle)
    (hpost : ∀ c ∈ post, ThrowOp.keeps button c = true) :
    has_throw_button1
      (run_ops ops (ButtonThrower.create mods0) (pre ++ ThrowOp.add m button :: post)) button
      = true := by
  rw [run_ops_append]
  show has_throw_button1 (run_ops ops (ThrowOp.apply ops _ (ThrowOp.add m button)) post) button
    = true
  exact has_throw_button1_kept ops button post _
    (has_throw_button1_add_same ops _ m button) hpost

/-- C5 amended, at a concrete input: clear, add(1, button 3), then a remove and
an add for button 4. -/
theorem has_throw_button1_after_add_kept_witness :
    has_throw_button1
      (run_ops sampleOps (ButtonThrower.create 0)
        ([ThrowOp.clear] ++ ThrowOp.add 1 ⟨3⟩ :: [ThrowOp.remove 1 ⟨4⟩, ThrowOp.add 2 ⟨4⟩]))
      ⟨3⟩ = true :=
  has_throw_button1_after_add_kept sampleOps 0 [ThrowOp.clear]
    [ThrowOp.remove 1 ⟨4⟩, ThrowOp.add 2 ⟨4⟩] 1 ⟨3⟩ (by simp [ThrowOp.keeps])

/-- C6: when ModifierButtons::matches is reflexive, has_throw_button(button)
returns true exactly when has_throw_button(mods, button) returns true for some
ModifierButtons value mods. -/
theorem has_throw_button1_iff_exists (ops : ModifierButtonsOps M)
    (hrefl : ∀ m, ops.«matches» m m = true) (self : ButtonThrower M) (button : ButtonHandle) :
    has_throw_button1 self button = true ↔
      ∃ mods, has_throw_button ops self mods button = true := by
  cases h : ThrowButtons.find self._throw_buttons button with
  | none => simp [has_throw_button1, has_throw_button, h]
  | some d =>
    cases d with
    | nil => simp [has_throw_button1, has_throw_button, h]
    | cons a rest =>
      simp only [has_throw_button1, has_throw_button, h]
      refine ⟨fun _ => ⟨a, by simp [hrefl]⟩, fun _ => by simp⟩

/-- C6 at a concrete input: a fresh object to which (mods 1, button 3) was
added. -/
theorem has_throw_button1_iff_exists_witness :
    has_throw_button1 (add_throw_button sampleOps (ButtonThrower.create 0) 1 ⟨3⟩).2 ⟨3⟩ = true ↔
      ∃ mods, has_throw_button sampleOps
        (add_throw_button sampleOps (ButtonThrower.create 0) 1 ⟨3⟩).2 mods ⟨3⟩ = true :=
  has_throw_button1_iff_exists sampleOps (by intro m; simp [sampleOps])
    (add_throw_button sampleOps (ButtonThrower.create 0) 1 ⟨3⟩).2 ⟨3⟩

/-- C7: clear_throw_buttons empties the set: after it no button has an entry,
and for every button and every mods, has_throw_button(button) and
has_throw_button(mods, button) return false and a following
add_throw_button(mods, button) returns true. -/
theorem clear_throw_buttons_spec (ops : ModifierButtonsOps M) (self : ButtonThrower M)
    (mods : M) (button : ButtonHandle) :
    ThrowButtons.find (clear_throw_buttons self)._throw_buttons button = none ∧
    has_throw_button1 (clear_throw_buttons self) button = false ∧
    has_throw_button ops (clear_throw_buttons self) mods button = false ∧
    (add_throw_button ops (clear_throw_buttons self) mods button).1 = true := by
  have h : ThrowButtons.find (clear_throw_buttons self)._throw_buttons button = none := rfl
  refine ⟨h, by simp [has_throw_button1, h], has_throw_button_of_none ops _ mods button h, ?_⟩
  rw [add_throw_button_of_none ops _ mods button h]

end ThrowSetClaims

/-! ## The event loop: filtering and event names -/

section TransmitClaims

variable {M : Type}

/-- C8: the constructor sets `_throw_buttons_active` to false, and when it is
false, for every input list and every throw-button set, do_transmit_data calls
do_specific_event and then do_general_event for every T_down, T_repeat, T_up,
T_raw_down and T_raw_up event (nothing for T_resume_down, do_general_event alone
for the other types), none of those events is in the output list, and the
output list is the input events of type T_keystroke, T_candidate and T_move in
input order. -/
theorem do_transmit_data_inactive (ops : ModifierButtonsOps M)
    (get_name : ButtonHandle → String) (self : ButtonThrower M) (evs : List ButtonEvent)
    (h : self._throw_buttons_active = false) :
    (∀ mods0 : M, (ButtonThrower.create mods0)._throw_buttons_active = false) ∧
    (do_transmit_data ops get_name self (some evs)).calls.map Call.kind
      = evs.flatMap processing_calls ∧
    (∀ be ∈ (do_transmit_data ops get_name self (some evs)).output,
      be._type.throwable = false) ∧
    (do_transmit_data ops get_name self (some evs)).output
      = evs.filter (fun be => be._type.non_button) := by
  have hl := transmit_loop_inactive ops get_name evs
    (Run.mk (self.with_button_events []) [] []) h
  have hout : (do_transmit_data ops get_name self (some evs)).output
      = evs.filter (fun be => be._type.non_button) := by
    simpa [do_transmit_data, Run.output, ButtonThrower.with_button_events] using hl.1
  refine ⟨fun _ => rfl, ?_, ?_, hout⟩
  · simpa [do_transmit_data] using hl.2
  · intro be hbe
    rw [hout] at hbe
    have hnb := (List.mem_filter.mp hbe).2
    cases ht : be._type <;> simp [ht, ButtonEventType.non_button] at hnb <;> rfl

/-- C8 at a concrete input: a fresh object given a shift press, a press and a
release of button 3, a keystroke and a resumed press. -/
theorem do_transmit_data_inactive_witness :
    (∀ mods0 : Nat, (ButtonThrower.create mods0)._throw_buttons_active = false) ∧
    (do_transmit_data sampleOps sampleName (ButtonThrower.create 0)
      (some [sampleEvent .T_down 0, sampleEvent .T_down 3, sampleEvent .T_up 3,
        sampleEvent .T_keystroke 3, sampleEvent .T_resume_down 1])).calls.map Call.kind
      = [sampleEvent .T_down 0, sampleEvent .T_down 3, sampleEvent .T_up 3,
        sampleEvent .T_keystroke 3, sampleEvent .T_resume_down 1].flatMap processing_calls ∧
    (∀ be ∈ (do_transmit_data sampleOps sampleName (ButtonThrower.create 0)
      (some [sampleEvent .T_down 0, sampleEvent .T_down 3, sampleEvent .T_up 3,
        sampleEvent .T_keystroke 3, sampleEvent .T_resume_down 1])).output,
      be._type.throwable = false) ∧
    (do_transmit_data sampleOps sampleName (ButtonThrower.create 0)
      (some [sampleEvent .T_down 0, sampleEvent .T_down 3, sampleEvent .T_up 3,
        sampleEvent .T_keystroke 3, sampleEvent .T_resume_down 1])).output
      = [sampleEvent .T_down 0, sampleEvent .T_down 3, sampleEvent .T_up 3,
        sampleEvent .T_keystroke 3, sampleEvent .T_resume_down 1].filter
          (fun be => be._type.non_button) :=
  do_transmit_data_inactive sampleOps sampleName (ButtonThrower.create 0)
    [sampleEvent .T_down 0, sampleEvent .T_down 3, sampleEvent .T_up 3,
      sampleEvent .T_keystroke 3, sampleEvent .T_resume_down 1] rfl

/-- C9: the code at the failing input.  With `_throw_buttons_active` true and
an empty throw-button set, button 3 is not on the list; the documentation of
add_throw_button has such a button passed on downstream, and the branch for
T_down does so (the output list holds the event), but for a T_resume_down event
of the same button nothing is thrown and the output list is empty: the event is
dropped instead of passed on. -/
theorem do_transmit_data_resume_down_dropped :
    sampleActive._throw_buttons_active = true ∧
    has_throw_button1 sampleActive (sampleEvent .T_resume_down 3)._button = false ∧
    (do_transmit_data sampleOps sampleName sampleActive
      (some [sampleEvent .T_down 3])).output = [sampleEvent .T_down 3] ∧
    (do_transmit_data sampleOps sampleName sampleActive
      (some [sampleEvent .T_resume_down 3])).thrown = [] ∧
    (do_transmit_data sampleOps sampleName sampleActive
      (some [sampleEvent .T_resume_down 3])).output = [] ∧
    sampleEvent .T_resume_down 3 ∉ (do_transmit_data sampleOps sampleName sampleActive
      (some [sampleEvent .T_resume_down 3])).output := by
  decide

/-- The extent of the behaviour above.  When `_throw_buttons_active` is true,
for every input list pre ++ be :: post whose event be has a button with no
entry in the throw-button set and a button event type (T_down, T_repeat,
T_resume_down, T_up, T_raw_down, T_raw_up), processing be makes no call of
do_specific_event or do_general_event and throws no event.  For the five types
other than T_resume_down the event is passed on, as documented: it is added to
the output list right after the output for pre and is in the final output
list.  Only the T_resume_down branch departs from that: its event is in no
output list. -/
theorem do_transmit_data_active_not_listed (ops : ModifierButtonsOps M)
    (get_name : ButtonHandle → String) (self : ButtonThrower M)
    (pre post : List ButtonEvent) (be : ButtonEvent)
    (hact : self._throw_buttons_active = true)
    (hno : has_throw_button1 self be._button = false)
    (hty : be._type.throwable = true ∨ be._type = .T_resume_down) :
    (do_transmit_data ops get_name self (some (pre ++ [be]))).thrown
      = (do_transmit_data ops get_name self (some pre)).thrown ∧
    (do_transmit_data ops get_name self (some (pre ++ [be]))).calls
      = (do_transmit_data ops get_name self (some pre)).calls ∧
    (be._type ≠ .T_resume_down →
      (do_transmit_data ops get_name self (some (pre ++ [be]))).output
        = (do_transmit_data ops get_name self (some pre)).output ++ [be] ∧
      be ∈ (do_transmit_data ops get_name self (some (pre ++ be :: post))).output) ∧
    (be._type = .T_resume_down →
      be ∉ (do_transmit_data ops get_name self (some (pre ++ be :: post))).output) := by
  have hcfg := transmit_loop_config ops get_name pre (Run.mk (self.with_button_events []) [] [])
  have hact1 : (transmit_loop ops get_name (Run.mk (self.with_button_events []) [] [])
      pre).self._throw_buttons_active = true := by rw [hcfg.1]; exact hact
  have hno1 : has_throw_button1 (transmit_loop ops get_name
      (Run.mk (self.with_button_events []) [] []) pre).self be._button = false := by
    rw [has_throw_button1_congr _ self be._button (by rw [hcfg.2]; rfl)]; exact hno
  have hstep := transmit_event_active_not_listed ops get_name _ be hact1 hno1 hty
  have h1 : do_transmit_data ops get_name self (some (pre ++ [be]))
      = transmit_event ops get_name (do_transmit_data ops get_name self (some pre)) be := by
    simp only [do_transmit_data, transmit_loop_append]; rfl
  have h2 : do_transmit_data ops get_name self (some (pre ++ be :: post))
      = transmit_loop ops get_name (do_transmit_data ops get_name self (some (pre ++ [be])))
          post := by
    have : pre ++ be :: post = (pre ++ [be]) ++ post := by simp
    rw [this]
    simp only [do_transmit_data, transmit_loop_append]
  refine ⟨by rw [h1]; exact hstep.1, by rw [h1]; exact hstep.2.1, ?_, ?_⟩
  · intro hne
    have hout : (do_transmit_data ops get_name self (some (pre ++ [be]))).output
        = (do_transmit_data ops get_name self (some pre)).output ++ [be] := by
      rw [h1]
      simpa [Run.output, do_transmit_data, hne] using hstep.2.2
    refine ⟨hout, ?_⟩
    rw [h2]
    apply transmit_loop_output_mono
    show be ∈ (do_transmit_data ops get_name self (some (pre ++ [be]))).output
    rw [hout]
    simp
  · intro heq hmem
    have := transmit_loop_output_no_resume ops get_name (pre ++ be :: post)
      (Run.mk (self.with_button_events []) [] [])
      (by intro e he; simp [ButtonThrower.with_button_events] at he) be hmem
    exact this heq

/-- The theorem above at a concrete input: the throw-button set is empty, button
3 is released after a press of shift and before a keystroke. -/
theorem do_transmit_data_active_not_listed_witness :
    (do_transmit_data sampleOps sampleName sampleActive
      (some ([sampleEvent .T_down 0] ++ [sampleEvent .T_up 3]))).thrown
      = (do_transmit_data sampleOps sampleName sampleActive
          (some [sampleEvent .T_down 0])).thrown ∧
    (do_transmit_data sampleOps sampleName sampleActive
      (some ([sampleEvent .T_down 0] ++ [sampleEvent .T_up 3]))).calls
      = (do_transmit_data sampleOps sampleName sampleActive
          (some [sampleEvent .T_down 0])).calls ∧
    ((sampleEvent .T_up 3)._type ≠ .T_resume_down →
      (do_transmit_data sampleOps sampleName sampleActive
        (some ([sampleEvent .T_down 0] ++ [sampleEvent .T_up 3]))).output
        = (do_transmit_data sampleOps sampleName sampleActive
            (some [sampleEvent .T_down 0])).output ++ [sampleEvent .T_up 3] ∧
      sampleEvent .T_up 3 ∈ (do_transmit_data sampleOps sampleName sampleActive
        (some ([sampleEvent .T_down 0] ++ sampleEvent .T_up 3
          :: [sampleEvent .T_keystroke 3]))).output) ∧
    ((sampleEvent .T_up 3)._type = .T_resume_down →
      sampleEvent .T_up 3 ∉ (do_transmit_data sampleOps sampleName sampleActive
        (some ([sampleEvent .T_down 0] ++ sampleEvent .T_up 3
          :: [sampleEvent .T_keystroke 3]))).output) :=
  do_transmit_data_active_not_listed sampleOps sampleName sampleActive
    [sampleEvent .T_down 0] [sampleEvent .T_keystroke 3] (sampleEvent .T_up 3)
    rfl (by decide) (Or.inl rfl)

/-- C10: when a T_down or T_repeat event be is processed
(`_throw_buttons_active` is false, or has_throw_button of the updated modifiers
and the button is true), the name handed to do_specific_event is the name of
the button when `_mods.button_down` returned true, and otherwise the prefix of
the modifiers after that call followed by the name of the button; a T_repeat
event gets the suffix "-repeat" and a T_down event none.  The same name
without suffix is handed to do_general_event. -/
theorem do_transmit_data_down_name (ops : ModifierButtonsOps M)
    (get_name : ButtonHandle → String) (self : ButtonThrower M)
    (pre : List ButtonEvent) (be : ButtonEvent)
    (hty : be._type = .T_down ∨ be._type = .T_repeat)
    (hproc : self._throw_buttons_active = false ∨
      has_throw_button ops self
        (ops.button_down (do_transmit_data ops get_name self (some pre)).self._mods
          be._button).2 be._button = true) :
    (do_transmit_data ops get_name self (some (pre ++ [be]))).calls
      = (do_transmit_data ops get_name self (some pre)).calls ++
        [Call.specific
          ((if (ops.button_down (do_transmit_data ops get_name self (some pre)).self._mods
                be._button).1
            then get_name be._button
            else ModifierButtonsOps.get_prefix ops
                (ops.button_down (do_transmit_data ops get_name self (some pre)).self._mods
                  be._button).2 ++ get_name be._button)
            ++ (if be._type = .T_repeat then "-repeat" else "")) be._time,
         Call.general be
          (if (ops.button_down (do_transmit_data ops get_name self (some pre)).self._mods
                be._button).1
            then get_name be._button
            else ModifierButtonsOps.get_prefix ops
                (ops.button_down (do_transmit_data ops get_name self (some pre)).self._mods
                  be._button).2 ++ get_name be._button)] := by
  have hcfg := transmit_loop_config ops get_name pre (Run.mk (self.with_button_events []) [] [])
  have h1 : do_transmit_data ops get_name self (some (pre ++ [be]))
      = transmit_event ops get_name (do_transmit_data ops get_name self (some pre)) be := by
    simp only [do_transmit_data, transmit_loop_append]; rfl
  rw [h1]
  apply transmit_event_down_calls ops get_name _ be hty
  rcases hproc with h | h
  · left
    show (transmit_loop ops get_name (Run.mk (self.with_button_events []) [] [])
      pre).self._throw_buttons_active = false
    rw [hcfg.1]; exact h
  · right
    rw [has_throw_button_congr ops (do_transmit_data ops get_name self (some pre)).self self
      _ be._button (by
        show (transmit_loop ops get_name (Run.mk (self.with_button_events []) [] [])
          pre).self._throw_buttons = self._throw_buttons
        rw [hcfg.2]; rfl)]
    exact h

/-- C10 at a concrete input: filtering is active with (shift, button 3) in the
throw-button set; shift is pressed, then button 3 repeats, and the name handed
to do_specific_event is "shift-a-repeat". -/
theorem do_transmit_data_down_name_witness :
    (do_transmit_data sampleOps sampleName (add_throw_button sampleOps sampleActive 1 ⟨3⟩).2
      (some ([sampleEvent .T_down 0] ++ [sampleEvent .T_repeat 3]))).calls
      = (do_transmit_data sampleOps sampleName (add_throw_button sampleOps sampleActive 1 ⟨3⟩).2
          (some [sampleEvent .T_down 0])).calls ++
        [Call.specific "shift-a-repeat" 7, Call.general (sampleEvent .T_repeat 3) "shift-a"] :=
  do_transmit_data_down_name sampleOps sampleName
    (add_throw_button sampleOps sampleActive 1 ⟨3⟩).2
    [sampleEvent .T_down 0] (sampleEvent .T_repeat 3) (Or.inr rfl) (Or.inr (by decide))

/-- C11: when a T_up, T_raw_down or T_raw_up event be of a button named n is
processed (`_throw_buttons_active` is false, or has_throw_button(button) is
true), the name handed to do_specific_event is n ++ "-up", "raw-" ++ n and
"raw-" ++ n ++ "-up" respectively, and the button name handed to
do_general_event is n.  The names are built from n alone: they are the same
for every modifier state and every behaviour of ModifierButtons, so no modifier
prefix is put in front of them. -/
theorem do_transmit_data_up_raw_name (ops : ModifierButtonsOps M)
    (get_name : ButtonHandle → String) (self : ButtonThrower M)
    (pre : List ButtonEvent) (be : ButtonEvent)
    (hty : be._type = .T_up ∨ be._type = .T_raw_down ∨ be._type = .T_raw_up)
    (hproc : self._throw_buttons_active = false ∨ has_throw_button1 self be._button = true) :
    (do_transmit_data ops get_name self (some (pre ++ [be]))).calls
      = (do_transmit_data ops get_name self (some pre)).calls ++
        [Call.specific
          (if be._type = .T_up then get_name be._button ++ "-up"
            else if be._type = .T_raw_down then "raw-" ++ get_name be._button
            else "raw-" ++ get_name be._button ++ "-up") be._time,
         Call.general be (get_name be._button)] := by
  have hcfg := transmit_loop_config ops get_name pre (Run.mk (self.with_button_events []) [] [])
  have h1 : do_transmit_data ops get_name self (some (pre ++ [be]))
      = transmit_event ops get_name (do_transmit_data ops get_name self (some pre)) be := by
    simp only [do_transmit_data, transmit_loop_append]; rfl
  rw [h1]
  apply transmit_event_up_raw_calls ops get_name _ be hty
  rcases hproc with h | h
  · left
    show (transmit_loop ops get_name (Run.mk (self.with_button_events []) [] [])
      pre).self._throw_buttons_active = false
    rw [hcfg.1]; exact h
  · right
    rw [has_throw_button1_congr (do_transmit_data ops get_name self (some pre)).self self
      be._button (by
        show (transmit_loop ops get_name (Run.mk (self.with_button_events []) [] [])
          pre).self._throw_buttons = self._throw_buttons
        rw [hcfg.2]; rfl)]
    exact h

/-- C11 at a concrete input: filtering is active with button 3 in the
throw-button set; shift is pressed and held, then a raw release of button 3
arrives, and the name handed to do_specific_event is "raw-a-up". -/
theorem do_transmit_data_up_raw_name_witness :
    (do_transmit_data sampleOps sampleName (add_throw_button sampleOps sampleActive 1 ⟨3⟩).2
      (some ([sampleEvent .T_down 0] ++ [sampleEvent .T_raw_up 3]))).calls
      = (do_transmit_data sampleOps sampleName (add_throw_button sampleOps sampleActive 1 ⟨3⟩).2
          (some [sampleEvent .T_down 0])).calls ++
        [Call.specific "raw-a-up" 7, Call.general (sampleEvent .T_raw_up 3) "a"] :=
  do_transmit_data_up_raw_name sampleOps sampleName
    (add_throw_button sampleOps sampleActive 1 ⟨3⟩).2
    [sampleEvent .T_down 0] (sampleEvent .T_raw_up 3) (Or.inr (Or.inr rfl))
    (Or.inr (by decide))

/-- C12: for every state and every T_resume_down event be, the loop body only
stores the result of `_mods.button_down(b)`; so do_transmit_data makes no call
of do_specific_event or do_general_event for it, throws no event, does not add
it to the output list (it is in no output list), and the modifier state
afterwards is button_down(b) applied to the state before. -/
theorem do_transmit_data_resume_down (ops : ModifierButtonsOps M)
    (get_name : ButtonHandle → String) (self : ButtonThrower M)
    (pre post : List ButtonEvent) (be : ButtonEvent)
    (hty : be._type = .T_resume_down) :
    (∀ r : Run M, transmit_event ops get_name r be
      = r.set_mods (ops.button_down r.self._mods be._button).2) ∧
    (do_transmit_data ops get_name self (some (pre ++ [be]))).thrown
      = (do_transmit_data ops get_name self (some pre)).thrown ∧
    (do_transmit_data ops get_name self (some (pre ++ [be]))).calls
      = (do_transmit_data ops get_name self (some pre)).calls ∧
    (do_transmit_data ops get_name self (some (pre ++ [be]))).output
      = (do_transmit_data ops get_name self (some pre)).output ∧
    be ∉ (do_transmit_data ops get_name self (some (pre ++ be :: post))).output ∧
    (do_transmit_data ops get_name self (some (pre ++ [be]))).self._mods
      = (ops.button_down (do_transmit_data ops get_name self (some pre)).self._mods
          be._button).2 := by
  have h1 : do_transmit_data ops get_name self (some (pre ++ [be]))
      = (do_transmit_data ops get_name self (some pre)).set_mods
          (ops.button_down (do_transmit_data ops get_name self (some pre)).self._mods
            be._button).2 := by
    rw [← transmit_event_resume_down ops get_name _ be hty]
    simp only [do_transmit_data, transmit_loop_append]; rfl
  refine ⟨fun r => transmit_event_resume_down ops get_name r be hty, ?_, ?_, ?_, ?_, ?_⟩
  · rw [h1]; rfl
  · rw [h1]; rfl
  · rw [h1]; rfl
  · intro hmem
    exact transmit_loop_output_no_resume ops get_name (pre ++ be :: post)
      (Run.mk (self.with_button_events []) [] [])
      (by intro e he; simp [ButtonThrower.with_button_events] at he) be hmem hty
  · rw [h1]; rfl

/-- C12 at a concrete input: a fresh object; button 3 is pressed, then a
resumed press of control arrives, followed by a keystroke. -/
theorem do_transmit_data_resume_down_witness :
    (do_transmit_data sampleOps sampleName (ButtonThrower.create 0)
      (some ([sampleEvent .T_down 3] ++ [sampleEvent .T_resume_down 1]))).thrown
      = (do_transmit_data sampleOps sampleName (ButtonThrower.create 0)
          (some [sampleEvent .T_down 3])).thrown ∧
    sampleEvent .T_resume_down 1 ∉ (do_transmit_data sampleOps sampleName
      (ButtonThrower.create 0)
      (some ([sampleEvent .T_down 3] ++ sampleEvent .T_resume_down 1
        :: [sampleEvent .T_keystroke 3]))).output ∧
    (do_transmit_data sampleOps sampleName (ButtonThrower.create 0)
      (some ([sampleEvent .T_down 3] ++ [sampleEvent .T_resume_down 1]))).self._mods = 2 :=
  ⟨(do_transmit_data_resume_down sampleOps sampleName (ButtonThrower.create 0)
      [sampleEvent .T_down 3] [sampleEvent .T_keystroke 3] (sampleEvent .T_resume_down 1)
      rfl).2.1,
   (do_transmit_data_resume_down sampleOps sampleName (ButtonThrower.create 0)
      [sampleEvent .T_down 3] [sampleEvent .T_keystroke 3] (sampleEvent .T_resume_down 1)
      rfl).2.2.2.2.1,
   (do_transmit_data_resume_down sampleOps sampleName (ButtonThrower.create 0)
      [sampleEvent .T_down 3] [sampleEvent .T_keystroke 3] (sampleEvent .T_resume_down 1)
      rfl).2.2.2.2.2⟩

/-- C13: for every input list and every two ButtonThrower states that agree on
`_mods` (and may differ in everything else: `_throw_buttons_active`, the
throw-button set, the flags, the prefix, the general event names, the user
parameters), the modifier state after do_transmit_data is the same in both
runs, and it is the fold over the input of button_down for each T_down,
T_repeat and T_resume_down event and button_up for each T_up event, raw and
non-button events leaving it unchanged. -/
theorem do_transmit_data_mods (ops : ModifierButtonsOps M)
    (get_name : ButtonHandle → String) (s1 s2 : ButtonThrower M) (evs : List ButtonEvent)
    (h : s1._mods = s2._mods) :
    (do_transmit_data ops get_name s1 (some evs)).self._mods
      = (do_transmit_data ops get_name s2 (some evs)).self._mods ∧
    (do_transmit_data ops get_name s1 (some evs)).self._mods
      = evs.foldl (spec_track_modifiers ops) s1._mods := by
  have h1 : ∀ s : ButtonThrower M, (do_transmit_data ops get_name s (some evs)).self._mods
      = evs.foldl (spec_track_modifiers ops) s._mods := by
    intro s
    exact transmit_loop_mods ops get_name evs (Run.mk (s.with_button_events []) [] [])
  exact ⟨by rw [h1 s1, h1 s2, h], h1 s1⟩

/-- C13 at a concrete input: a fresh object and one with filtering active and
(shift, button 3) in the throw-button set get the same events; both end with
control held (modifier state 2). -/
theorem do_transmit_data_mods_witness :
    (do_transmit_data sampleOps sampleName (ButtonThrower.create 0)
      (some [sampleEvent .T_down 0, sampleEvent .T_repeat 3, sampleEvent .T_raw_down 2,
        sampleEvent .T_resume_down 1, sampleEvent .T_up 0, sampleEvent .T_keystroke 3])).self._mods
      = (do_transmit_data sampleOps sampleName (add_throw_button sampleOps sampleActive 1 ⟨3⟩).2
          (some [sampleEvent .T_down 0, sampleEvent .T_repeat 3, sampleEvent .T_raw_down 2,
            sampleEvent .T_resume_down 1, sampleEvent .T_up 0,
            sampleEvent .T_keystroke 3])).self._mods ∧
    (do_transmit_data sampleOps sampleName (ButtonThrower.create 0)
      (some [sampleEvent .T_down 0, sampleEvent .T_repeat 3, sampleEvent .T_raw_down 2,
        sampleEvent .T_resume_down 1, sampleEvent .T_up 0, sampleEvent .T_keystroke 3])).self._mods
      = 2 :=
  do_transmit_data_mods sampleOps sampleName (ButtonThrower.create 0)
    (add_throw_button sampleOps sampleActive 1 ⟨3⟩).2
    [sampleEvent .T_down 0, sampleEvent .T_repeat 3, sampleEvent .T_raw_down 2,
      sampleEvent .T_resume_down 1, sampleEvent .T_up 0, sampleEvent .T_keystroke 3] rfl

end TransmitClaims

end ButtonThrowerModel
